import Mathlib

/-!
Verification of the node identity and registration core of the Intelli-Core
web server (src/main.rs), via a shallow embedding into Lean.

Strings are modelled as `List Char` (ASCII fragment: the configs under study
are ASCII, where Rust's Unicode-aware `trim`/`is_whitespace` agree with
`Char.isWhitespace`). Rust's `str::lines`, `str::trim`, `split('"')`,
`starts_with`, `ends_with` are embedded directly; the SQLite tables `system`
and `logs` become lists of rows with explicit rowid assignment
(`max id + 1`, matching SQLite's `INTEGER PRIMARY KEY` behaviour on a store
that only ever inserts); `chrono::Utc::now().to_rfc3339()` enters the model
as an explicit timestamp parameter `now`, and `serde_json::json!` with its
default BTreeMap key ordering (keys serialized sorted) is embedded in
`main_state_json`.
-/

abbrev Str := List Char

/-- Rust `str::trim_start` (ASCII fragment): drop leading whitespace. -/
def trimStart : Str → Str
  | [] => []
  | c :: cs => if c.isWhitespace then trimStart cs else c :: cs

/-- Rust `str::trim_end` (ASCII fragment): drop trailing whitespace. -/
def trimEnd (s : Str) : Str := (trimStart s.reverse).reverse

/-- Rust `str::trim` (ASCII fragment): drop whitespace on both ends. -/
def trim (s : Str) : Str := trimStart (trimEnd s)

/-- Rust `str::starts_with`. -/
def startsWith : Str → Str → Bool
  | _, [] => true
  | [], _ :: _ => false
  | c :: cs, p :: ps => c == p && startsWith cs ps

/-- Rust `str::ends_with`. -/
def endsWith (s suffix : Str) : Bool := startsWith s.reverse suffix.reverse

/-- Rust `str::split(sep)` for a single-character separator: always returns
at least one (possibly empty) piece, with a trailing empty piece when the
input ends with the separator. -/
def splitOnChar (sep : Char) : Str → List Str
  | [] => [[]]
  | c :: cs =>
    if c == sep then [] :: splitOnChar sep cs
    else
      match splitOnChar sep cs with
      | r :: rs => (c :: r) :: rs
      | [] => [[c]]

/-- Rust `str::lines` drops a final empty piece (the split is on
terminators, not separators). -/
def dropLastEmpty (ls : List Str) : List Str :=
  match ls.getLast? with
  | some [] => ls.dropLast
  | _ => ls

/-- Rust `str::lines` strips one carriage return preceding each newline
(`strip_suffix('\r')` on each piece). -/
def stripTrailingCR (l : Str) : Str :=
  if l.getLast? == some '\r' then l.dropLast else l

/-- Rust `str::lines`: split at `'\n'`, the final terminator optional, and a
`"\r\n"` ending counting as a single terminator. -/
def rustLines (s : Str) : List Str :=
  (dropLastEmpty (splitOnChar '\n' s)).map stripTrailingCR

/-- UTF-8 byte length of a string, as Rust's `str::len`. -/
def utf8Len (s : Str) : Nat := s.foldl (fun n c => n + c.utf8Size) 0

/-- `NodeType` from src/main.rs. -/
inductive NodeType where
  | Parent : NodeType
  | Child : NodeType
deriving DecidableEq

/-- `NodeType::as_str` from src/main.rs. -/
def NodeType.as_str : NodeType → Str
  | NodeType.Parent => ("parent").data
  | NodeType.Child => ("child").data

/-- `PackageInfo` from src/main.rs. -/
structure PackageInfo where
  name : Str
  version : Str
  uuid : Str
  server : Str
deriving DecidableEq

def nameKey : Str := ("name =").data
def versionKey : Str := ("version =").data
def uuidKey : Str := ("uuid =").data
def serverKey : Str := ("server =").data

/-- `line.split('"').nth(1).unwrap_or("")` from `read_package_info`: the
piece between the first and second double quote, or everything after a lone
quote, or empty when the line has no quote at all. -/
def quotedValue (line : Str) : Str := (splitOnChar '"' line).getD 1 []

/-- One iteration of the line loop of `read_package_info` (src/main.rs
lines 49-60): trim the line, then assign the matching key's field. -/
def readStep (st : PackageInfo) (rawLine : Str) : PackageInfo :=
  let line := trim rawLine
  if startsWith line nameKey then { st with name := quotedValue line }
  else if startsWith line versionKey then { st with version := quotedValue line }
  else if startsWith line uuidKey then { st with uuid := quotedValue line }
  else if startsWith line serverKey then { st with server := quotedValue line }
  else st

/-- `read_package_info` (src/main.rs lines 40-63), as a function of the
config artifact's text (the `fs::read_to_string` result). -/
def read_package_info (cargo_content : Str) : PackageInfo :=
  (rustLines cargo_content).foldl readStep ⟨[], [], [], []⟩

/-- `determine_node_type` (src/main.rs lines 65-74). -/
def determine_node_type (package_name : Str) : NodeType :=
  if endsWith package_name (("core").data) then NodeType.Parent
  else if endsWith package_name (("child").data) then NodeType.Child
  else NodeType.Parent

/-- `line.len() - line.trim_start().len()` from `patch_uuid_to_cargo`:
the byte width of a line's leading whitespace. -/
def indentOf (line : Str) : Nat := utf8Len line - utf8Len (trimStart line)

/-- The replacement line `format!("{}uuid = \"{}\"", " ".repeat(indent), new_uuid)`
without its trailing newline. -/
def uuidAssign (new_uuid : Str) : Str := ("uuid = \"").data ++ new_uuid ++ ['"']

/-- One line of the rewrite loop of `patch_uuid_to_cargo` (src/main.rs
lines 80-88), without the trailing newline each branch pushes. -/
def patchLine (new_uuid line : Str) : Str :=
  if startsWith (trim line) uuidKey then
    List.replicate (indentOf line) ' ' ++ uuidAssign new_uuid
  else line

/-- `patch_uuid_to_cargo` (src/main.rs lines 76-93) as a text transformer:
content read from the file in, content written back out. Every line is
emitted followed by `'\n'`. -/
def patch_uuid_to_cargo (cargo_content new_uuid : Str) : Str :=
  (rustLines cargo_content).foldl
    (fun acc line => acc ++ patchLine new_uuid line ++ ['\n']) []

/-- Joining lines, each terminated by a newline: the shape of any text
`patch_uuid_to_cargo` writes. -/
def unlines (ls : List Str) : Str :=
  ls.foldr (fun l acc => l ++ '\n' :: acc) []

/-- Hex digit as serde_json prints control-character escapes (lowercase). -/
def hexDigit (n : Nat) : Char :=
  if n < 10 then Char.ofNat ('0'.toNat + n) else Char.ofNat ('a'.toNat + n - 10)

/-- serde_json's string-character escaping: `"` and `\` escaped, the short
control escapes, `\u00xx` for other control characters, all else verbatim. -/
def jsonEscapeChar (c : Char) : Str :=
  if c = '"' then ['\\', '"']
  else if c = '\\' then ['\\', '\\']
  else if c = '\x08' then ['\\', 'b']
  else if c = '\t' then ['\\', 't']
  else if c = '\n' then ['\\', 'n']
  else if c = '\x0c' then ['\\', 'f']
  else if c = '\r' then ['\\', 'r']
  else if c.toNat < 32 then
    ['\\', 'u', '0', '0', hexDigit (c.toNat / 16), hexDigit (c.toNat % 16)]
  else [c]

/-- serde_json serialization of a string value. -/
def jsonString (s : Str) : Str :=
  '"' :: s.foldr (fun c acc => jsonEscapeChar c ++ acc) ['"']

/-- The `main_state` snapshot built in `manage_system_node` (src/main.rs
lines 121-125): `serde_json::json!({version, server, started_at}).to_string()`
with serde_json's default sorted key order (server, started_at, version).
`started_at` is the `chrono::Utc::now().to_rfc3339()` value, which enters
the model as a parameter. -/
def main_state_json (version server started_at : Str) : Str :=
  '\x7b' :: (("\"server\":").data ++ jsonString server
    ++ ',' :: (("\"started_at\":").data ++ jsonString started_at
    ++ ',' :: (("\"version\":").data ++ jsonString version ++ ['\x7d'])))

/-- A row of the `system` table (schema in spec §6); `status` is NULL until
`set_node_status` touches the row. -/
structure SystemRow where
  id : Int
  node_uuid : Str
  node : Str
  server_name : Str
  main_state : Str
  status : Option Str
deriving DecidableEq

/-- A row of the `logs` table (schema in spec §6). -/
structure LogRow where
  server_id : Int
  log_level : Str
  message : Str
  content : Str
deriving DecidableEq

/-- The SQLite store: the two tables the registration core touches. -/
structure DB where
  system : List SystemRow
  logs : List LogRow
deriving DecidableEq

/-- SQLite's rowid assignment for an `INTEGER PRIMARY KEY` table that only
ever inserts: one more than the largest existing rowid (1 on an empty
table); this is what `last_insert_rowid` then reports. -/
def nextRowId (rows : List SystemRow) : Int :=
  rows.foldl (fun m r => max m r.id) 0 + 1

/-- `manage_system_node` (src/main.rs lines 104-143): look up the row with
the identity's uuid (`query_row ... optional`); if present return its id
with no write, otherwise insert a new row and return its fresh rowid.
`now` models the `chrono::Utc::now().to_rfc3339()` timestamp taken during
the insert. -/
def manage_system_node (db : DB) (package_info : PackageInfo) (now : Str) :
    Int × DB :=
  let node_type := determine_node_type package_info.name
  match db.system.find? (fun r => r.node_uuid == package_info.uuid) with
  | some r => (r.id, db)
  | none =>
    let main_state := main_state_json package_info.version package_info.server now
    let node_id := nextRowId db.system
    (node_id,
     { db with
        system := db.system ++
          [{ id := node_id, node_uuid := package_info.uuid,
             node := node_type.as_str, server_name := package_info.name,
             main_state := main_state, status := none }] })

/-- `set_node_status` (src/main.rs lines 145-152): an unconditional
`UPDATE system SET status = ? WHERE node_uuid = ?`. Returns the updated
store together with the affected-row count `conn.execute` reports. -/
def set_node_status (db : DB) (node_uuid status : Str) : DB × Nat :=
  ({ db with
      system := db.system.map (fun r =>
        if r.node_uuid == node_uuid then { r with status := some status } else r) },
   (db.system.filter (fun r => r.node_uuid == node_uuid)).length)

/-- `log_important_event_to_db` (src/main.rs lines 154-171): a single
`INSERT INTO logs`, with `content.unwrap_or("{}")`. -/
def log_important_event_to_db (db : DB) (server_id : Int)
    (log_level message : Str) (content : Option Str) : DB :=
  { db with
     logs := db.logs ++
       [{ server_id := server_id, log_level := log_level, message := message,
          content := content.getD (("\x7b\x7d").data) }] }

/-- `package_info.uuid.is_empty()` from `main` (src/main.rs line 200): the
condition under which a fresh UUID is generated and patched back. -/
def uuid_needs_generation (package_info : PackageInfo) : Bool :=
  package_info.uuid.isEmpty

/-- A line `matchesKey key` when its trimmed form starts with `key`, the
match condition of both scanning loops. -/
def matchesKey (key l : Str) : Bool := startsWith (trim l) key

/-- The value `read_package_info`'s loop leaves for a key: the quoted value
of the last matching line, or the fallback when no line matches. -/
def lastKeyValue (key : Str) (ls : List Str) (dflt : Str) : Str :=
  match (ls.filter (matchesKey key)).getLast? with
  | some l => quotedValue (trim l)
  | none => dflt

/-! ### Basic lemmas about the embedded string primitives -/

theorem startsWith_nil (s : Str) : startsWith s [] = true := by
  cases s <;> rfl

theorem startsWith_append_self (k r : Str) : startsWith (k ++ r) k = true := by
  induction k with
  | nil => exact startsWith_nil r
  | cons c k ih => simp [startsWith, ih]

theorem startsWith_heads {s k1 k2 : Str} {c1 c2 : Char}
    (h1 : startsWith s (c1 :: k1) = true) (h2 : startsWith s (c2 :: k2) = true) :
    c1 = c2 := by
  cases s with
  | nil => simp [startsWith] at h1
  | cons a s =>
    simp only [startsWith, Bool.and_eq_true, beq_iff_eq] at h1 h2
    exact h1.1 ▸ h2.1

theorem trimStart_cons_not_ws {c : Char} (x : Str) (h : c.isWhitespace = false) :
    trimStart (c :: x) = c :: x := by
  simp [trimStart, h]

theorem trimStart_replicate_space (n : Nat) (x : Str) :
    trimStart (List.replicate n ' ' ++ x) = trimStart x := by
  induction n with
  | zero => rfl
  | succ n ih => simpa [List.replicate_succ, trimStart] using ih

theorem trimEnd_concat_not_ws (x : Str) (a : Char) (h : a.isWhitespace = false) :
    trimEnd (x ++ [a]) = x ++ [a] := by
  simp [trimEnd, trimStart_cons_not_ws _ h]

theorem trimEnd_stripTrailingCR (l : Str) : trimEnd (stripTrailingCR l) = trimEnd l := by
  rcases l.eq_nil_or_concat with rfl | ⟨ys, a, rfl⟩
  · rfl
  · rw [List.concat_eq_append]
    by_cases ha : a = '\r'
    · subst ha
      have hl : stripTrailingCR (ys ++ ['\r']) = ys := by
        simp [stripTrailingCR, List.getLast?_concat, List.dropLast_concat]
      rw [hl]
      simp [trimEnd, trimStart]
    · have hl : stripTrailingCR (ys ++ [a]) = ys ++ [a] := by
        simp [stripTrailingCR, List.getLast?_concat, ha]
      rw [hl]

theorem trim_stripTrailingCR (l : Str) : trim (stripTrailingCR l) = trim l := by
  simp [trim, trimEnd_stripTrailingCR]

theorem matchesKey_stripTrailingCR (key l : Str) :
    matchesKey key (stripTrailingCR l) = matchesKey key l := by
  simp [matchesKey, trim_stripTrailingCR]

theorem splitOnChar_ne_nil (c : Char) (s : Str) : splitOnChar c s ≠ [] := by
  cases s with
  | nil => simp [splitOnChar]
  | cons a s =>
    by_cases h : a = c
    · simp [splitOnChar, h]
    · simp only [splitOnChar, beq_iff_eq, h, if_false]
      cases hr : splitOnChar c s with
      | nil => simp
      | cons r rs => simp

theorem splitOnChar_not_mem (c : Char) (l : Str) (h : c ∉ l) : splitOnChar c l = [l] := by
  induction l with
  | nil => rfl
  | cons a l ih =>
    have ha : ¬ a = c := by
      intro hc; exact h (hc ▸ List.mem_cons_self a l)
    have hl : c ∉ l := fun hc => h (List.mem_cons_of_mem a hc)
    simp only [splitOnChar, beq_iff_eq, ha, if_false, ih hl]

theorem splitOnChar_append_sep (c : Char) (l rest : Str) (h : c ∉ l) :
    splitOnChar c (l ++ c :: rest) = l :: splitOnChar c rest := by
  induction l with
  | nil => simp [splitOnChar]
  | cons a l ih =>
    have ha : ¬ a = c := by
      intro hc; exact h (hc ▸ List.mem_cons_self a l)
    have hl : c ∉ l := fun hc => h (List.mem_cons_of_mem a hc)
    simp only [List.cons_append, splitOnChar, beq_iff_eq, ha, if_false, List.append_eq,
      ih hl]

theorem not_mem_of_mem_splitOnChar (c : Char) (s : Str) :
    ∀ p ∈ splitOnChar c s, c ∉ p := by
  induction s with
  | nil =>
    intro p hp
    simp [splitOnChar] at hp
    simp [hp]
  | cons a s ih =>
    intro p hp
    by_cases h : a = c
    · simp only [splitOnChar, beq_iff_eq, h, if_true, List.mem_cons] at hp
      rcases hp with rfl | hp
      · simp
      · exact ih p hp
    · simp only [splitOnChar, beq_iff_eq, h, if_false] at hp
      cases hr : splitOnChar c s with
      | nil => exact absurd hr (splitOnChar_ne_nil c s)
      | cons r rs =>
        rw [hr] at hp
        simp only [List.mem_cons] at hp
        rcases hp with rfl | hp
        · intro hc
          rcases List.mem_cons.mp hc with rfl | hc
          · exact h rfl
          · exact ih r (hr ▸ List.mem_cons_self r rs) hc
        · exact ih p (hr ▸ List.mem_cons_of_mem r hp)

/-! ### The four key prefixes are mutually exclusive (distinct first letters) -/

theorem nameKey_cons : nameKey = 'n' :: ("ame =").data := by decide

theorem versionKey_cons : versionKey = 'v' :: ("ersion =").data := by decide

theorem uuidKey_cons : uuidKey = 'u' :: ("uid =").data := by decide

theorem serverKey_cons : serverKey = 's' :: ("erver =").data := by decide

theorem startsWith_excl {t : Str} {c1 c2 : Char} {k1 k2 : Str} (hne : c1 ≠ c2)
    (h1 : startsWith t (c1 :: k1) = true) : startsWith t (c2 :: k2) = false := by
  cases h : startsWith t (c2 :: k2) with
  | false => rfl
  | true => exact absurd (startsWith_heads h1 h) hne

/-! ### What one iteration of the `read_package_info` loop does to each field -/

theorem readStep_name (st : PackageInfo) (l : Str) :
    (readStep st l).name =
      if matchesKey nameKey l then quotedValue (trim l) else st.name := by
  unfold readStep matchesKey
  by_cases h1 : startsWith (trim l) nameKey = true
  · simp [h1]
  · have h1f : startsWith (trim l) nameKey = false := by
      cases h : startsWith (trim l) nameKey
      · rfl
      · exact absurd h h1
    by_cases h2 : startsWith (trim l) versionKey = true
    · simp [h1f, h2]
    · by_cases h3 : startsWith (trim l) uuidKey = true
      · simp [h1f, h2, h3]
      · by_cases h4 : startsWith (trim l) serverKey = true <;> simp [h1f, h2, h3, h4]

theorem readStep_version (st : PackageInfo) (l : Str) :
    (readStep st l).version =
      if matchesKey versionKey l then quotedValue (trim l) else st.version := by
  unfold readStep matchesKey
  by_cases h1 : startsWith (trim l) nameKey = true
  · have h2 : startsWith (trim l) versionKey = false :=
      versionKey_cons ▸ startsWith_excl (by decide) (nameKey_cons ▸ h1)
    simp [h1, h2]
  · by_cases h2 : startsWith (trim l) versionKey = true
    · simp [h1, h2]
    · by_cases h3 : startsWith (trim l) uuidKey = true
      · simp [h1, h2, h3]
      · by_cases h4 : startsWith (trim l) serverKey = true <;> simp [h1, h2, h3, h4]

theorem readStep_uuid (st : PackageInfo) (l : Str) :
    (readStep st l).uuid =
      if matchesKey uuidKey l then quotedValue (trim l) else st.uuid := by
  unfold readStep matchesKey
  by_cases h1 : startsWith (trim l) nameKey = true
  · have h3 : startsWith (trim l) uuidKey = false :=
      uuidKey_cons ▸ startsWith_excl (by decide) (nameKey_cons ▸ h1)
    simp [h1, h3]
  · by_cases h2 : startsWith (trim l) versionKey = true
    · have h3 : startsWith (trim l) uuidKey = false :=
        uuidKey_cons ▸ startsWith_excl (by decide) (versionKey_cons ▸ h2)
      simp [h1, h2, h3]
    · by_cases h3 : startsWith (trim l) uuidKey = true
      · simp [h1, h2, h3]
      · by_cases h4 : startsWith (trim l) serverKey = true <;> simp [h1, h2, h3, h4]

theorem readStep_server (st : PackageInfo) (l : Str) :
    (readStep st l).server =
      if matchesKey serverKey l then quotedValue (trim l) else st.server := by
  unfold readStep matchesKey
  by_cases h1 : startsWith (trim l) nameKey = true
  · have h4 : startsWith (trim l) serverKey = false :=
      serverKey_cons ▸ startsWith_excl (by decide) (nameKey_cons ▸ h1)
    simp [h1, h4]
  · by_cases h2 : startsWith (trim l) versionKey = true
    · have h4 : startsWith (trim l) serverKey = false :=
        serverKey_cons ▸ startsWith_excl (by decide) (versionKey_cons ▸ h2)
      simp [h1, h2, h4]
    · by_cases h3 : startsWith (trim l) uuidKey = true
      · have h4 : startsWith (trim l) serverKey = false :=
          serverKey_cons ▸ startsWith_excl (by decide) (uuidKey_cons ▸ h3)
        simp [h1, h2, h3, h4]
      · by_cases h4 : startsWith (trim l) serverKey = true <;> simp [h1, h2, h3, h4]

/-! ### The loop keeps, for each key, the value of the last matching line -/

theorem lastKeyValue_cons (key l : Str) (ls : List Str) (d : Str) :
    lastKeyValue key (l :: ls) d =
      lastKeyValue key ls (if matchesKey key l then quotedValue (trim l) else d) := by
  unfold lastKeyValue
  rw [List.filter_cons]
  cases h : matchesKey key l with
  | false => simp [h]
  | true =>
    simp only [h, if_true]
    cases hf : ls.filter (matchesKey key) with
    | nil => simp [hf]
    | cons hd tl =>
      simp only [hf, List.getLast?_cons_cons]
      cases hg : (hd :: tl).getLast? with
      | none => simp at hg
      | some x => rfl

theorem foldl_readStep (ls : List Str) (st : PackageInfo) :
    ls.foldl readStep st =
      ⟨lastKeyValue nameKey ls st.name, lastKeyValue versionKey ls st.version,
       lastKeyValue uuidKey ls st.uuid, lastKeyValue serverKey ls st.server⟩ := by
  induction ls generalizing st with
  | nil => simp [lastKeyValue]
  | cons l ls ih =>
    rw [List.foldl_cons, ih, lastKeyValue_cons, lastKeyValue_cons, lastKeyValue_cons,
      lastKeyValue_cons, readStep_name, readStep_version, readStep_uuid, readStep_server]

/-! ### The text `patch_uuid_to_cargo` writes, and how `rustLines` reads it back -/

theorem unlines_cons (l : Str) (ls : List Str) :
    unlines (l :: ls) = l ++ '\n' :: unlines ls := rfl

theorem foldl_emit_lines (f : Str → Str) (ls : List Str) (a : Str) :
    ls.foldl (fun acc l => acc ++ f l ++ ['\n']) a = a ++ unlines (ls.map f) := by
  induction ls generalizing a with
  | nil => simp [unlines]
  | cons l ls ih =>
    rw [List.foldl_cons, ih, List.map_cons, unlines_cons]
    simp [List.append_assoc]

theorem patch_eq_unlines (content u : Str) :
    patch_uuid_to_cargo content u = unlines ((rustLines content).map (patchLine u)) := by
  unfold patch_uuid_to_cargo
  rw [foldl_emit_lines]
  simp

theorem splitOnChar_unlines (ls : List Str) (h : ∀ l ∈ ls, ('\n' : Char) ∉ l) :
    splitOnChar '\n' (unlines ls) = ls ++ [[]] := by
  induction ls with
  | nil => rfl
  | cons l ls ih =>
    rw [unlines_cons, splitOnChar_append_sep _ _ _ (h l (List.mem_cons_self l ls)),
      ih (fun x hx => h x (List.mem_cons_of_mem _ hx))]
    rfl

theorem rustLines_unlines (ls : List Str) (h : ∀ l ∈ ls, ('\n' : Char) ∉ l) :
    rustLines (unlines ls) = ls.map stripTrailingCR := by
  unfold rustLines dropLastEmpty
  rw [splitOnChar_unlines ls h, List.getLast?_concat]
  simp [List.dropLast_concat]

theorem mem_dropLastEmpty {ls : List Str} {p : Str} (hp : p ∈ dropLastEmpty ls) :
    p ∈ ls := by
  unfold dropLastEmpty at hp
  split at hp
  · exact List.dropLast_subset ls hp
  · exact hp

theorem mem_stripTrailingCR {p : Str} {x : Char} (hx : x ∈ stripTrailingCR p) : x ∈ p := by
  unfold stripTrailingCR at hx
  split at hx
  · exact List.dropLast_subset p hx
  · exact hx

theorem newline_not_mem_rustLines (s : Str) : ∀ l ∈ rustLines s, ('\n' : Char) ∉ l := by
  intro l hl
  unfold rustLines at hl
  rcases List.mem_map.mp hl with ⟨p, hp, rfl⟩
  intro hc
  exact not_mem_of_mem_splitOnChar '\n' s p (mem_dropLastEmpty hp) (mem_stripTrailingCR hc)

/-! ### The shape of a rewritten uuid line -/

theorem uuidAssign_concat (u : Str) :
    uuidAssign u = (("uuid = ").data ++ '"' :: u) ++ ['"'] := by
  unfold uuidAssign
  have : ("uuid = \"").data = ("uuid = ").data ++ ['"'] := by decide
  rw [this]
  simp

theorem stripTrailingCR_concat_quote (x : Str) :
    stripTrailingCR (x ++ ['"']) = x ++ ['"'] := by
  unfold stripTrailingCR
  rw [List.getLast?_concat]
  simp

theorem stripTrailingCR_uuid_line (n : Nat) (u : Str) :
    stripTrailingCR (List.replicate n ' ' ++ uuidAssign u) =
      List.replicate n ' ' ++ uuidAssign u := by
  rw [uuidAssign_concat, ← List.append_assoc]
  exact stripTrailingCR_concat_quote _

theorem trim_uuid_line (n : Nat) (u : Str) :
    trim (List.replicate n ' ' ++ uuidAssign u) = uuidAssign u := by
  unfold trim
  rw [uuidAssign_concat, ← List.append_assoc,
    trimEnd_concat_not_ws _ _ (by decide), List.append_assoc,
    trimStart_replicate_space]
  have : ("uuid = ").data ++ '"' :: u ++ ['"'] = 'u' :: (("uid = ").data ++ '"' :: u ++ ['"']) := by
    simp [show ("uuid = ").data = 'u' :: ("uid = ").data from by decide]
  rw [this, trimStart_cons_not_ws _ (by decide), ← this]

theorem matchesKey_uuid_line (n : Nat) (u : Str) :
    matchesKey uuidKey (List.replicate n ' ' ++ uuidAssign u) = true := by
  unfold matchesKey
  rw [trim_uuid_line]
  have : uuidAssign u = uuidKey ++ (' ' :: '"' :: (u ++ ['"'])) := by
    unfold uuidAssign
    rw [show ("uuid = \"").data = uuidKey ++ [' ', '"'] from by decide]
    simp
  rw [this]
  exact startsWith_append_self _ _

theorem quotedValue_uuidAssign (u : Str) (h : ('"' : Char) ∉ u) :
    quotedValue (uuidAssign u) = u := by
  unfold quotedValue uuidAssign
  rw [show ("uuid = \"").data = ("uuid = ").data ++ ['"'] from by decide]
  have h1 : ("uuid = ").data ++ ['"'] ++ u ++ ['"'] =
      ("uuid = ").data ++ '"' :: (u ++ '"' :: []) := by simp
  rw [h1, splitOnChar_append_sep _ _ _ (by decide),
    splitOnChar_append_sep _ _ _ h]
  rfl

/-! ### Claim theorems -/

/-- C1: for an identity whose uuid already has a row in the `system` table,
`manage_system_node` returns the existing row's id and performs zero writes:
the store (hence every column of the row) is identical before and after. -/
theorem manage_system_node_reregister_noop (db : DB) (pkg : PackageInfo)
    (now : Str) (r : SystemRow)
    (h : db.system.find? (fun row => row.node_uuid == pkg.uuid) = some r) :
    manage_system_node db pkg now = (r.id, db) := by
  unfold manage_system_node
  rw [h]

theorem manage_system_node_reregister_noop_witness :
    manage_system_node
      ⟨[⟨1, ("abc-123").data, ("parent").data, ("widget-core").data, [], none⟩], []⟩
      ⟨("widget-core").data, ("1.0.0").data, ("abc-123").data, ("us-east").data⟩
      (("2024-01-01T00:00:00+00:00").data)
      = (1, ⟨[⟨1, ("abc-123").data, ("parent").data, ("widget-core").data, [], none⟩], []⟩) :=
  manage_system_node_reregister_noop _ _ _
    ⟨1, ("abc-123").data, ("parent").data, ("widget-core").data, [], none⟩ (by decide)

/-- C2: for an identity whose uuid has no row yet, `manage_system_node`
appends exactly one new row whose `node` is the role label, `server_name`
the identity's name, and `main_state` the JSON snapshot containing the
identity's version, its server, and the `started_at` timestamp (the
`to_rfc3339` clock value `now`); it returns the fresh surrogate id, which
on an empty store is 1. -/
theorem manage_system_node_first_registration (db : DB) (pkg : PackageInfo)
    (now : Str)
    (h : db.system.find? (fun row => row.node_uuid == pkg.uuid) = none) :
    manage_system_node db pkg now =
      (nextRowId db.system,
       { system := db.system ++
           [{ id := nextRowId db.system, node_uuid := pkg.uuid,
              node := (determine_node_type pkg.name).as_str,
              server_name := pkg.name,
              main_state := main_state_json pkg.version pkg.server now,
              status := none }],
         logs := db.logs }) ∧
    (∃ a b, main_state_json pkg.version pkg.server now =
        a ++ ((("\"version\":").data ++ jsonString pkg.version) ++ b)) ∧
    (∃ a b, main_state_json pkg.version pkg.server now =
        a ++ ((("\"server\":").data ++ jsonString pkg.server) ++ b)) ∧
    (∃ a b, main_state_json pkg.version pkg.server now =
        a ++ ((("\"started_at\":").data ++ jsonString now) ++ b)) ∧
    (db.system = [] → nextRowId db.system = 1) := by
  refine ⟨?_, ?_, ?_, ?_, ?_⟩
  · unfold manage_system_node
    rw [h]
  · refine ⟨'\x7b' :: ((("\"server\":").data ++ jsonString pkg.server
      ++ ',' :: ((("\"started_at\":").data ++ jsonString now ++ [','])))), ['\x7d'], ?_⟩
    unfold main_state_json
    simp
  · refine ⟨['\x7b'], ',' :: ((("\"started_at\":").data ++ jsonString now
      ++ ',' :: ((("\"version\":").data ++ jsonString pkg.version ++ ['\x7d'])))), ?_⟩
    unfold main_state_json
    simp
  · refine ⟨'\x7b' :: ((("\"server\":").data ++ jsonString pkg.server ++ [','])),
      ',' :: ((("\"version\":").data ++ jsonString pkg.version ++ ['\x7d'])), ?_⟩
    unfold main_state_json
    simp
  · intro he
    rw [he]
    rfl

theorem manage_system_node_first_registration_witness :
    manage_system_node ⟨[], []⟩
      ⟨("widget-core").data, ("1.0.0").data, ("abc-123").data, ("us-east").data⟩
      (("2024-01-01T00:00:00+00:00").data)
      = (1, ⟨[⟨1, ("abc-123").data, ("parent").data, ("widget-core").data,
              ("\x7b\"server\":\"us-east\",\"started_at\":\"2024-01-01T00:00:00+00:00\",\"version\":\"1.0.0\"\x7d").data,
              none⟩], []⟩) ∧
    (∃ a b, ("\x7b\"server\":\"us-east\",\"started_at\":\"2024-01-01T00:00:00+00:00\",\"version\":\"1.0.0\"\x7d").data =
        a ++ ((("\"version\":").data ++ jsonString (("1.0.0").data)) ++ b)) := by
  have h := manage_system_node_first_registration ⟨[], []⟩
    ⟨("widget-core").data, ("1.0.0").data, ("abc-123").data, ("us-east").data⟩
    (("2024-01-01T00:00:00+00:00").data) (by decide)
  refine ⟨h.1.trans (by decide), ?_⟩
  have h2 := h.2.1
  have heq : main_state_json (("1.0.0").data) (("us-east").data)
      (("2024-01-01T00:00:00+00:00").data) =
      ("\x7b\"server\":\"us-east\",\"started_at\":\"2024-01-01T00:00:00+00:00\",\"version\":\"1.0.0\"\x7d").data := by
    decide
  rw [heq] at h2
  exact h2

/-- C6: `determine_node_type` is a pure total function of the name: a
`"core"` suffix maps to Parent (checked first), else a `"child"` suffix
maps to Child, and everything else defaults to Parent; in particular
`x-core` is Parent, `x-child` is Child and `x` is Parent. -/
theorem determine_node_type_spec (name : Str) :
    (endsWith name (("core").data) = true →
      determine_node_type name = NodeType.Parent) ∧
    (endsWith name (("core").data) = false →
      endsWith name (("child").data) = true →
      determine_node_type name = NodeType.Child) ∧
    (endsWith name (("core").data) = false →
      endsWith name (("child").data) = false →
      determine_node_type name = NodeType.Parent) ∧
    determine_node_type (("x-core").data) = NodeType.Parent ∧
    determine_node_type (("x-child").data) = NodeType.Child ∧
    determine_node_type (("x").data) = NodeType.Parent := by
  refine ⟨?_, ?_, ?_, by decide, by decide, by decide⟩
  · intro h
    simp [determine_node_type, h]
  · intro h1 h2
    simp [determine_node_type, h1, h2]
  · intro h1 h2
    simp [determine_node_type, h1, h2]

theorem determine_node_type_spec_witness :
    endsWith (("x-core").data) (("core").data) = true ∧
    determine_node_type (("x-core").data) = NodeType.Parent ∧
    endsWith (("y-child").data) (("core").data) = false ∧
    endsWith (("y-child").data) (("child").data) = true ∧
    determine_node_type (("y-child").data) = NodeType.Child :=
  ⟨by decide, (determine_node_type_spec (("x-core").data)).1 (by decide), by decide,
   by decide,
   (determine_node_type_spec (("y-child").data)).2.1 (by decide) (by decide)⟩

/-- C7: `set_node_status` with a uuid not present in the `system` table
affects zero rows and leaves the store unchanged (and, being a plain
UPDATE, reports success). -/
theorem set_node_status_unknown_uuid (db : DB) (uuid status : Str)
    (h : ∀ r ∈ db.system, (r.node_uuid == uuid) = false) :
    set_node_status db uuid status = (db, 0) := by
  unfold set_node_status
  refine Prod.ext ?_ ?_
  · show ({ db with system := _ } : DB) = db
    have hmap : db.system.map
        (fun r => if r.node_uuid == uuid then { r with status := some status } else r)
        = db.system :=
      (List.map_congr_left (fun r hr => by simp [h r hr])).trans
        (List.map_id' db.system)
    rw [hmap]
  · show (db.system.filter (fun r => r.node_uuid == uuid)).length = 0
    rw [List.filter_eq_nil_iff.mpr (fun r hr => by simp [h r hr])]
    rfl

theorem set_node_status_unknown_uuid_witness :
    set_node_status
      ⟨[⟨1, ("abc-123").data, ("parent").data, ("widget-core").data, [], none⟩], []⟩
      (("nonexistent-uuid").data) (("stopped").data)
      = (⟨[⟨1, ("abc-123").data, ("parent").data, ("widget-core").data, [], none⟩], []⟩, 0) :=
  set_node_status_unknown_uuid _ _ _ (by decide)

/-- C8: `log_important_event_to_db` appends exactly one row to `logs` with
the given server_id, level and message; an absent `content` is stored as
the literal two-character string of an empty JSON object, and a present
`content` is stored unchanged. -/
theorem log_important_event_spec (db : DB) (server_id : Int)
    (log_level message c : Str) :
    log_important_event_to_db db server_id log_level message none =
      { system := db.system,
        logs := db.logs ++ [⟨server_id, log_level, message, ("\x7b\x7d").data⟩] } ∧
    log_important_event_to_db db server_id log_level message (some c) =
      { system := db.system,
        logs := db.logs ++ [⟨server_id, log_level, message, c⟩] } ∧
    (("\x7b\x7d").data).length = 2 :=
  ⟨rfl, rfl, by decide⟩

/-- C3 (amended): `read_package_info` scans the lines for the four keys,
and for each key the LAST matching line in the file determines the
returned value (each match overwrites the previous one); a key with no
matching line yields the empty string. -/
theorem read_package_info_last_match_wins (cargo_content : Str) :
    read_package_info cargo_content =
      ⟨lastKeyValue nameKey (rustLines cargo_content) [],
       lastKeyValue versionKey (rustLines cargo_content) [],
       lastKeyValue uuidKey (rustLines cargo_content) [],
       lastKeyValue serverKey (rustLines cargo_content) []⟩ :=
  foldl_readStep (rustLines cargo_content) ⟨[], [], [], []⟩

/-- C3 counterexample: with two `name = "..."` lines the first matching
line holds the value `a`, but `read_package_info` returns `b`, the value
of the last matching line, refuting first-match-wins. -/
theorem read_package_info_first_match_counterexample :
    (rustLines (("name = \"a\"\nname = \"b\"\n").data)).find? (matchesKey nameKey)
        = some (("name = \"a\"").data) ∧
    quotedValue (trim (("name = \"a\"").data)) = ("a").data ∧
    (read_package_info (("name = \"a\"\nname = \"b\"\n").data)).name = ("b").data ∧
    ("b").data ≠ ("a").data := by decide

/-- C9 (amended): `read_package_info` takes, for a recognized key line, the
piece between the first and second double quote; with exactly one double
quote on the line it takes everything after that quote (not the empty
string); only with no double quote at all does the key get the empty
string, and an empty parsed uuid is what triggers downstream regeneration. -/
theorem quotedValue_quote_rules (line pre mid post : Str) :
    (('"' : Char) ∉ line → quotedValue line = []) ∧
    (line = pre ++ '"' :: (mid ++ '"' :: post) → ('"' : Char) ∉ pre →
      ('"' : Char) ∉ mid → quotedValue line = mid) ∧
    (line = pre ++ '"' :: mid → ('"' : Char) ∉ pre → ('"' : Char) ∉ mid →
      quotedValue line = mid) ∧
    (∀ st : PackageInfo, matchesKey uuidKey line = true →
      (readStep st line).uuid = quotedValue (trim line)) ∧
    (∀ pkg : PackageInfo, uuid_needs_generation pkg = true ↔ pkg.uuid = []) := by
  refine ⟨?_, ?_, ?_, ?_, ?_⟩
  · intro h
    unfold quotedValue
    rw [splitOnChar_not_mem _ _ h]
    rfl
  · intro he h1 h2
    subst he
    unfold quotedValue
    rw [splitOnChar_append_sep _ _ _ h1, splitOnChar_append_sep _ _ _ h2]
    rfl
  · intro he h1 h2
    subst he
    unfold quotedValue
    rw [splitOnChar_append_sep _ _ _ h1, splitOnChar_not_mem _ _ h2]
    rfl
  · intro st hm
    rw [readStep_uuid, hm]
    rfl
  · intro pkg
    simp [uuid_needs_generation, List.isEmpty_iff]

theorem quotedValue_quote_rules_witness :
    quotedValue (("uuid = abc").data) = [] ∧
    quotedValue (("uuid = \"abc-123\"").data) = ("abc-123").data ∧
    quotedValue (("uuid = \"abc").data) = ("abc").data ∧
    uuid_needs_generation (read_package_info (("uuid = abc").data)) = true :=
  ⟨(quotedValue_quote_rules (("uuid = abc").data) [] [] []).1 (by decide),
   (quotedValue_quote_rules (("uuid = \"abc-123\"").data) (("uuid = ").data)
      (("abc-123").data) []).2.1 (by decide) (by decide) (by decide),
   (quotedValue_quote_rules (("uuid = \"abc").data) (("uuid = ").data)
      (("abc").data) []).2.2.1 (by decide) (by decide) (by decide),
   ((quotedValue_quote_rules [] [] [] []).2.2.2.2
      (read_package_info (("uuid = abc").data))).mpr (by decide)⟩

/-- C9 counterexample: a `uuid` key line with exactly one double quote does
NOT yield the empty string — the parsed value is everything after the
quote — refuting "fewer than two double quotes yields the empty string". -/
theorem quotedValue_single_quote_counterexample :
    (read_package_info (("uuid = \"abc").data)).uuid = ("abc").data ∧
    ("abc").data ≠ ([] : Str) := by decide

/-! ### Reading back a patched text -/

theorem newline_not_mem_patchLine (content u : Str) (h3 : ('\n' : Char) ∉ u) :
    ∀ l ∈ rustLines content, ('\n' : Char) ∉ patchLine u l := by
  intro l hl
  unfold patchLine
  split
  · intro hc
    rcases List.mem_append.mp hc with hc | hc
    · exact absurd (List.eq_of_mem_replicate hc) (by decide)
    · unfold uuidAssign at hc
      rcases List.mem_append.mp hc with hc | hc
      · rcases List.mem_append.mp hc with hc | hc
        · exact absurd hc (by decide)
        · exact h3 hc
      · simp at hc
  · exact newline_not_mem_rustLines content l hl

theorem rustLines_patch (content u : Str) (h3 : ('\n' : Char) ∉ u) :
    rustLines (patch_uuid_to_cargo content u) =
      (rustLines content).map (fun l => stripTrailingCR (patchLine u l)) := by
  rw [patch_eq_unlines, rustLines_unlines _ (by
    intro l' hl'
    rcases List.mem_map.mp hl' with ⟨l, hl, rfl⟩
    exact newline_not_mem_patchLine content u h3 l hl), List.map_map]
  rfl

/-- C4 (amended): `patch_uuid_to_cargo` rewrites only the uuid lines: every
line whose trimmed form does not start with `uuid =` reaches the output
verbatim as a line at the same position (modulo the line reader stripping a
trailing carriage return); and when NO line matches, the output is exactly
the input's lines each terminated with `'\n'` — the patch rewrites the file
with normalized line endings rather than leaving the bytes untouched. -/
theorem patch_uuid_frame (content u : Str) (h3 : ('\n' : Char) ∉ u) :
    (∀ i : Nat, ∀ l : Str, (rustLines content)[i]? = some l →
        matchesKey uuidKey l = false →
        (rustLines (patch_uuid_to_cargo content u))[i]? =
          some (stripTrailingCR l)) ∧
    ((∀ l ∈ rustLines content, matchesKey uuidKey l = false) →
        patch_uuid_to_cargo content u = unlines (rustLines content)) := by
  constructor
  · intro i l hi hm
    rw [rustLines_patch content u h3, List.getElem?_map, hi]
    unfold matchesKey at hm
    simp [patchLine, hm]
  · intro hall
    rw [patch_eq_unlines]
    congr 1
    refine (List.map_congr_left ?_).trans (List.map_id' _)
    intro l hl
    have := hall l hl
    unfold matchesKey at this
    simp [patchLine, this]

theorem patch_uuid_frame_witness :
    (rustLines (patch_uuid_to_cargo (("x = 1\na = 2").data) (("u").data)))[0]? =
      some (("x = 1").data) ∧
    patch_uuid_to_cargo (("x = 1\na = 2").data) (("u").data) =
      unlines (rustLines (("x = 1\na = 2").data)) :=
  ⟨((patch_uuid_frame (("x = 1\na = 2").data) (("u").data) (by decide)).1 0
      (("x = 1").data) (by decide) (by decide)).trans (by decide),
   (patch_uuid_frame (("x = 1\na = 2").data) (("u").data) (by decide)).2 (by decide)⟩

/-- C4 counterexample: the claim's no-op half and indentation half both
fail at the byte level. Patching `"a"` (no uuid line, no trailing newline)
returns `"a\n"`, not the unchanged content; and a tab-indented uuid line is
re-emitted with a SPACE as its indentation, not the original tab. -/
theorem patch_uuid_counterexample :
    patch_uuid_to_cargo (("a").data) (("u").data) ≠ ("a").data ∧
    patch_uuid_to_cargo (("\tuuid = \"old\"").data) (("u").data) =
      (" uuid = \"u\"\n").data := by decide

/-- C10: `patch_uuid_to_cargo` rewrites EVERY line whose trimmed form
starts with `uuid =`, not just one: each such line, at its position, is
replaced by its indentation width in spaces followed by the new uuid
assignment. -/
theorem patch_rewrites_all_uuid_lines (content u : Str)
    (h3 : ('\n' : Char) ∉ u) (i : Nat) (l : Str)
    (hi : (rustLines content)[i]? = some l)
    (hm : matchesKey uuidKey l = true) :
    (rustLines (patch_uuid_to_cargo content u))[i]? =
      some (List.replicate (indentOf l) ' ' ++ uuidAssign u) := by
  rw [rustLines_patch content u h3, List.getElem?_map, hi]
  unfold matchesKey at hm
  simp [patchLine, hm, stripTrailingCR_uuid_line]

theorem patch_rewrites_all_uuid_lines_witness :
    (rustLines (patch_uuid_to_cargo
        (("uuid = \"a\"\n  uuid = \"b\"\nx = 1\n").data) (("u").data)))[0]? =
      some (("uuid = \"u\"").data) ∧
    (rustLines (patch_uuid_to_cargo
        (("uuid = \"a\"\n  uuid = \"b\"\nx = 1\n").data) (("u").data)))[1]? =
      some (("  uuid = \"u\"").data) :=
  ⟨(patch_rewrites_all_uuid_lines (("uuid = \"a\"\n  uuid = \"b\"\nx = 1\n").data)
      (("u").data) (by decide) 0 (("uuid = \"a\"").data) (by decide)
      (by decide)).trans (by decide),
   (patch_rewrites_all_uuid_lines (("uuid = \"a\"\n  uuid = \"b\"\nx = 1\n").data)
      (("u").data) (by decide) 1 (("  uuid = \"b\"").data) (by decide)
      (by decide)).trans (by decide)⟩

/-- C5 (amended): provided the config text has at least one line whose
trimmed form starts with `uuid =`, and the uuid contains no double quote
and no newline (true of every generated v4 uuid), patching the uuid in and
re-loading the identity from the patched text yields exactly that uuid. -/
theorem patch_then_read_roundtrip (content u : Str)
    (h1 : ∃ l ∈ rustLines content, matchesKey uuidKey l = true)
    (h2 : ('"' : Char) ∉ u) (h3 : ('\n' : Char) ∉ u) :
    (read_package_info (patch_uuid_to_cargo content u)).uuid = u := by
  have hscan := foldl_readStep (rustLines (patch_uuid_to_cargo content u))
    ⟨[], [], [], []⟩
  unfold read_package_info
  rw [hscan]
  show lastKeyValue uuidKey (rustLines (patch_uuid_to_cargo content u)) [] = u
  rw [rustLines_patch content u h3]
  have hg : ∀ l ∈ rustLines content,
      matchesKey uuidKey (stripTrailingCR (patchLine u l)) = matchesKey uuidKey l := by
    intro l hl
    cases hm : matchesKey uuidKey l with
    | true =>
      unfold matchesKey at hm
      simp only [patchLine, hm, if_true]
      rw [stripTrailingCR_uuid_line]
      exact matchesKey_uuid_line _ u
    | false =>
      unfold matchesKey at hm
      simp only [patchLine, hm, if_false]
      rw [matchesKey_stripTrailingCR]
      unfold matchesKey
      exact hm
  unfold lastKeyValue
  rw [List.filter_map]
  simp only [Function.comp_def]
  rw [List.filter_congr hg]
  obtain ⟨l0, hl0, hm0⟩ := h1
  have hne : (rustLines content).filter (matchesKey uuidKey) ≠ [] := by
    intro hc
    have := List.filter_eq_nil_iff.mp hc l0 hl0
    simp [hm0] at this
  obtain ⟨b, hb⟩ : ∃ b,
      ((rustLines content).filter (matchesKey uuidKey)).getLast? = some b :=
    ⟨_, List.getLast?_eq_getLast _ hne⟩
  have hbmem := List.mem_of_mem_getLast? hb
  have hbm : matchesKey uuidKey b = true := (List.mem_filter.mp hbmem).2
  rw [List.getLast?_map, hb]
  unfold matchesKey at hbm
  simp only [Option.map_some', patchLine, hbm, if_true]
  rw [stripTrailingCR_uuid_line, trim_uuid_line, quotedValue_uuidAssign u h2]

theorem patch_then_read_roundtrip_witness :
    (read_package_info (patch_uuid_to_cargo
        (("name = \"widget-core\"\nuuid = \"\"\n").data)
        (("016f1c4b-12c4-4f3e-9a3e-1d2b3c4d5e6f").data))).uuid =
      ("016f1c4b-12c4-4f3e-9a3e-1d2b3c4d5e6f").data :=
  patch_then_read_roundtrip (("name = \"widget-core\"\nuuid = \"\"\n").data)
    (("016f1c4b-12c4-4f3e-9a3e-1d2b3c4d5e6f").data)
    ⟨("uuid = \"\"").data, by decide, by decide⟩ (by decide) (by decide)

/-- C5 counterexample: for a config text with no `uuid =` line at all, the
patch writes nothing for the uuid, and re-loading yields the empty string
instead of the generated uuid — the round trip fails there. -/
theorem patch_then_read_roundtrip_counterexample :
    (read_package_info (patch_uuid_to_cargo (("name = \"widget-core\"\n").data)
        (("016f1c4b-12c4-4f3e-9a3e-1d2b3c4d5e6f").data))).uuid ≠
      ("016f1c4b-12c4-4f3e-9a3e-1d2b3c4d5e6f").data := by decide
